import Mathlib

/-!
Verification of the semantic retriever core of this repository
(`langgraph_tutorials/customer_support/policy.py`, class `PolicyRetriever`).

The embedding is shallow: floating-point scores are modelled over `ℚ`
(the dot product and the comparisons in the concrete scenarios are exact,
so no rounding issue is introduced), numpy arrays become lists, and the
mutable object becomes explicit state passing.

Modelling notes, each traceable to a source line:
* `PolicyRetriever.__init__` sets `self._docs = None`, `self._arr = None`
  (policy.py lines 38-39): state `mkEmpty`.
* `initialize` (lines 41-58) computes the section list and the embedding
  vectors first and assigns `self._docs` / `self._arr` only after
  `embed_documents` has returned; an exception in `embed_documents`
  therefore leaves both fields untouched.  `initializeRun` returns the
  post-state in both branches to make that explicit.
* `query` (lines 60-91) first checks `self._docs is None or self._arr is
  None` and raises `RuntimeError`; then `scores = query_vector @ arr.T`
  (one dot product per row), `top_k_idx = np.argpartition(scores, -k)[-k:]`,
  `top_k_idx_sorted = top_k_idx[np.argsort(-scores[top_k_idx])]`, and the
  result dictionaries carry `page_content` and `similarity = scores[idx]`.
* `np.argpartition(a, kth)` raises `ValueError` unless the (negatively
  normalised) `kth` lies in `[0, n)`; on success it returns some
  permutation of `0..n-1` whose partitions around position `kth` are
  correct but internally unordered.  A fully ascending argsort satisfies
  that postcondition, and this model uses it; consequences that depend on
  which of several EQUAL-scored indices survives the cut, or on the order
  of ties, are choices of this model, not facts of numpy, and no claim is
  settled from them.
* Python slicing `xs[-k:]` is `pySliceFrom xs (-k)`: for `k = 0` the slice
  `[-0:]` is `[0:]`, the whole list.
-/

namespace PolicySpec

/-- Content of one document: the `page_content` string of the dict built in
`initialize` (policy.py line 49). -/
abbrev Doc := String

/-- Default value used only to state list indexing totally; every index we
ever read is proved to be in range. -/
def defaultDoc : Doc := ""

/-- Dot product of two vectors, `query_vector @ row` (policy.py line 85). -/
def dot (v w : List ℚ) : ℚ := (List.zipWith (fun a b => a * b) v w).sum

/-- `scores = query_vector @ self._arr.T`: one dot product per stored row
(policy.py line 85). -/
def scoresOf (qv : List ℚ) (arr : List (List ℚ)) : List ℚ :=
  arr.map (fun row => dot qv row)

/-- Comparison of two positions of `s` by their score, the sort key used to
model `np.argsort`. -/
def scoreLe (s : List ℚ) (i j : Nat) : Prop := s.getD i 0 ≤ s.getD j 0

instance (s : List ℚ) : DecidableRel (scoreLe s) := fun i j =>
  inferInstanceAs (Decidable (s.getD i 0 ≤ s.getD j 0))

instance (s : List ℚ) : IsTotal Nat (scoreLe s) := ⟨fun _ _ => le_total _ _⟩

instance (s : List ℚ) : IsTrans Nat (scoreLe s) :=
  ⟨fun _ _ _ hab hbc => le_trans hab hbc⟩

/-- Ascending argsort of `s`: a permutation of `0..n-1` ordered by score. -/
def argsortAsc (s : List ℚ) : List Nat :=
  List.insertionSort (scoreLe s) (List.range s.length)

/-- numpy's bound check on `kth`: a negative `kth` is normalised by adding
`n`, and the result must land in `[0, n)`; otherwise `ValueError`. -/
def argpartitionValid (n : Nat) (kth : Int) : Prop :=
  let kth2 : Int := if kth < 0 then kth + n else kth
  0 ≤ kth2 ∧ kth2 < n

instance (n : Nat) (kth : Int) : Decidable (argpartitionValid n kth) :=
  inferInstanceAs (Decidable (_ ∧ _))

/-- Model of `np.argpartition(s, kth)` (policy.py line 86).  numpy raises
`ValueError` when `kth` is out of bounds; on success the returned
permutation has the partition property around `kth`, which the fully
sorted permutation satisfies. -/
def argpartition (s : List ℚ) (kth : Int) : Option (List Nat) :=
  if argpartitionValid s.length kth then some (argsortAsc s) else none

/-- Python slice `l[s:]` with a possibly negative start, as used by
`[-k:]` on policy.py line 86. -/
def pySliceFrom {α : Type} (l : List α) (s : Int) : List α :=
  if s < 0 then l.drop ((l.length : Int) + s).toNat else l.drop s.toNat

/-- Default index for total `getD` statements; never actually read. -/
def defaultIdx : Nat := 0

/-- The index pipeline of `query` (policy.py lines 86-87):
`top_k_idx = np.argpartition(scores, -k)[-k:]` followed by
`top_k_idx_sorted = top_k_idx[np.argsort(-scores[top_k_idx])]`.
`none` models the `ValueError` escaping from `np.argpartition`. -/
def queryIdx (s : List ℚ) (k : Int) : Option (List Nat) :=
  match argpartition s (-k) with
  | none => none
  | some p =>
    let top := pySliceFrom p (-k)
    let order := argsortAsc (top.map (fun i => -(s.getD i 0)))
    some (order.map (fun j => top.getD j defaultIdx))

/-- One returned dictionary `{**doc, "similarity": scores[idx]}`
(policy.py lines 89-91). -/
structure RankedResult where
  content : Doc
  similarity : ℚ
deriving DecidableEq, Repr

/-- The exceptions `query` can raise: the explicit `RuntimeError` of
policy.py line 82 and the `ValueError` numpy raises inside line 86. -/
inductive QueryError where
  | notInitialized
  | valueError
deriving DecidableEq, Repr

/-- The two fields `self._docs` / `self._arr` of `PolicyRetriever`
(policy.py lines 38-39); the dicts are reduced to their `page_content`. -/
structure PolicyRetriever where
  docs : Option (List Doc)
  arr : Option (List (List ℚ))
deriving DecidableEq, Repr

/-- State right after `__init__` (policy.py lines 38-39). -/
def mkEmpty : PolicyRetriever := ⟨none, none⟩

/-- `PolicyRetriever.query` (policy.py lines 60-91), with the query
embedding `embed_query` already evaluated to `qv`. -/
def query (st : PolicyRetriever) (qv : List ℚ) (k : Int) :
    Except QueryError (List RankedResult) :=
  match st.docs, st.arr with
  | some docs, some arr =>
    let scores := scoresOf qv arr
    match queryIdx scores k with
    | none => .error .valueError
    | some idxs =>
      .ok (idxs.map (fun i => ⟨docs.getD i defaultDoc, scores.getD i 0⟩))
  | _, _ => .error .notInitialized

/-- `PolicyRetriever.initialize` (policy.py lines 41-58), with the download
and the `re.split` already evaluated to `sections` and the outcome of
`self._model.embed_documents` passed as `embedRes`.  Returns the raised
exception (if any) together with the post-state: the two assignments on
lines 56-57 run only after `embed_documents` has returned, so on failure
the pre-state is returned unchanged. -/
def initializeRun (st : PolicyRetriever) (sections : List Doc)
    (embedRes : Except Unit (List (List ℚ))) :
    Except Unit Unit × PolicyRetriever :=
  match embedRes with
  | .error e => (.error e, st)
  | .ok vectors => (.ok (), ⟨some sections, some vectors⟩)

/-- Head test of `re.split(r"(?=\n##)", text)`: a zero-width match sits
exactly before each occurrence of newline-hash-hash. -/
def isSectionStart : List Char → Bool
  | '\n' :: '#' :: '#' :: _ => true
  | _ => false

/-- Worker for `splitSections`: `acc` holds the current piece reversed. -/
def splitSectionsAux (acc : List Char) : List Char → List (List Char)
  | [] => [acc.reverse]
  | c :: rest =>
    if isSectionStart (c :: rest) then
      acc.reverse :: splitSectionsAux [c] rest
    else
      splitSectionsAux (c :: acc) rest

/-- `re.split(r"(?=\n##)", faq_text)` (policy.py line 49): the text is cut
before every newline-hash-hash occurrence (also at position 0, giving a
leading empty piece, as Python does for a zero-width match at the start). -/
def splitSections (text : List Char) : List (List Char) :=
  splitSectionsAux [] text

/-! ### Helper lemmas about the embedded pipeline -/

/-- Reading a mapped list inside its bounds commutes with the function. -/
theorem getD_map_of_lt {α β : Type} (f : α → β) (l : List α) {a : Nat}
    (h : a < l.length) (d : α) (d2 : β) :
    (l.map f).getD a d2 = f (l.getD a d) := by
  have h2 : a < (l.map f).length := by simpa using h
  rw [List.getD_eq_getElem _ _ h2, List.getD_eq_getElem _ _ h, List.getElem_map]

/-- Reading every position of a list in order reproduces the list. -/
theorem map_getD_range {α : Type} (l : List α) (d : α) :
    (List.range l.length).map (fun i => l.getD i d) = l := by
  apply List.ext_getElem
  · simp
  · intro i h1 h2
    simp only [List.getElem_map, List.getElem_range]
    rw [List.getD_eq_getElem _ _ h2]

theorem argsortAsc_perm (s : List ℚ) :
    (argsortAsc s).Perm (List.range s.length) :=
  List.perm_insertionSort _ _

theorem argsortAsc_sorted (s : List ℚ) :
    List.Sorted (scoreLe s) (argsortAsc s) :=
  List.sorted_insertionSort _ _

theorem argsortAsc_nodup (s : List ℚ) : (argsortAsc s).Nodup :=
  ((argsortAsc_perm s).nodup_iff).2 (List.nodup_range _)

theorem argsortAsc_length (s : List ℚ) :
    (argsortAsc s).length = s.length := by
  simpa using (argsortAsc_perm s).length_eq

theorem mem_argsortAsc {s : List ℚ} {i : Nat} (h : i ∈ argsortAsc s) :
    i < s.length := by
  have := (argsortAsc_perm s).mem_iff.1 h
  simpa [List.mem_range] using this

/-- The slice `[-k:]` for `k ≥ 1` keeps the last `min k n` entries. -/
theorem pySliceFrom_neg {α : Type} (l : List α) (k : Int) (hk : 1 ≤ k) :
    pySliceFrom l (-k) = l.drop (l.length - k.toNat) := by
  unfold pySliceFrom
  rw [if_pos (by omega)]
  congr 1
  omega

/-- The slice `[-0:]` is `[0:]`: the whole list. -/
theorem pySliceFrom_zero {α : Type} (l : List α) : pySliceFrom l 0 = l := by
  unfold pySliceFrom
  simp

/-- The normalised bound check is exactly `-n ≤ kth < n`. -/
theorem argpartitionValid_iff (n : Nat) (kth : Int) :
    argpartitionValid n kth ↔ -(n : Int) ≤ kth ∧ kth < (n : Int) := by
  simp only [argpartitionValid]
  by_cases h : kth < 0
  · simp only [if_pos h]
    omega
  · simp only [if_neg h]
    omega

/-- `np.argpartition(s, -k)` succeeds for `1 ≤ k ≤ n`. -/
theorem argpartition_eq_some (s : List ℚ) (k : Int) (hk1 : 1 ≤ k)
    (hkn : k ≤ (s.length : Int)) :
    argpartition s (-k) = some (argsortAsc s) := by
  rw [argpartition, if_pos ((argpartitionValid_iff _ _).2 (by constructor <;> omega))]

/-- `np.argpartition(s, 0)` succeeds on a non-empty array. -/
theorem argpartition_zero (s : List ℚ) (h : s ≠ []) :
    argpartition s 0 = some (argsortAsc s) := by
  have hlen : 0 < s.length := List.length_pos.2 h
  rw [argpartition, if_pos ((argpartitionValid_iff _ _).2 (by constructor <;> omega))]

/-- `np.argpartition(s, -k)` raises `ValueError` when `k > n`. -/
theorem argpartition_gt (s : List ℚ) (k : Int) (h : (s.length : Int) < k) :
    argpartition s (-k) = none := by
  rw [argpartition, if_neg]
  intro hv
  have := (argpartitionValid_iff _ _).1 hv
  omega

/-- The only permutation this model ever returns is the full argsort. -/
theorem argpartition_some_eq {s : List ℚ} {kth : Int} {p : List Nat}
    (h : argpartition s kth = some p) : p = argsortAsc s := by
  rw [argpartition] at h
  split at h
  · simpa using h.symm
  · exact absurd h (by simp)

/-- The re-ranking stage of `query` (policy.py line 87): sorting the selected
indices by descending score permutes them and orders their scores
non-increasingly. -/
theorem topStage (s : List ℚ) (top : List Nat) :
    ((argsortAsc (top.map fun i => -(s.getD i 0))).map
        (fun j => top.getD j defaultIdx)).Perm top ∧
    List.Sorted (fun a b => s.getD b 0 ≤ s.getD a 0)
      ((argsortAsc (top.map fun i => -(s.getD i 0))).map
        (fun j => top.getD j defaultIdx)) := by
  set neg := top.map (fun i => -(s.getD i 0)) with hneg
  have hlen : neg.length = top.length := by simp [hneg]
  have hmem : ∀ j ∈ argsortAsc neg, j < top.length := by
    intro j hj
    have := mem_argsortAsc hj
    omega
  constructor
  · have hperm := (argsortAsc_perm neg).map (fun j => top.getD j defaultIdx)
    rw [hlen] at hperm
    rwa [map_getD_range top defaultIdx] at hperm
  · have hsorted := argsortAsc_sorted neg
    have hpw : (argsortAsc neg).Pairwise
        (fun a b => s.getD (top.getD b defaultIdx) 0 ≤
          s.getD (top.getD a defaultIdx) 0) := by
      refine hsorted.imp_of_mem ?_
      intro a b ha hb hab
      have ha2 := hmem a ha
      have hb2 := hmem b hb
      have e1 : neg.getD a 0 = -(s.getD (top.getD a defaultIdx) 0) := by
        rw [hneg]; exact getD_map_of_lt _ top ha2 defaultIdx 0
      have e2 : neg.getD b 0 = -(s.getD (top.getD b defaultIdx) 0) := by
        rw [hneg]; exact getD_map_of_lt _ top hb2 defaultIdx 0
      have hab2 : neg.getD a 0 ≤ neg.getD b 0 := hab
      rw [e1, e2] at hab2
      linarith
    exact hpw.map _ (fun a b h => h)

/-- Every index produced by `queryIdx` addresses a real score row. -/
theorem queryIdx_mem_lt {s : List ℚ} {k : Int} {idxs : List Nat}
    (h : queryIdx s k = some idxs) : ∀ i ∈ idxs, i < s.length := by
  intro i hi
  rcases hp : argpartition s (-k) with _ | p
  · rw [queryIdx, hp] at h
    exact absurd h (by simp)
  · rw [queryIdx, hp] at h
    simp only [Option.some.injEq] at h
    subst h
    have hperm := (topStage s (pySliceFrom p (-k))).1
    have hi2 : i ∈ pySliceFrom p (-k) := hperm.mem_iff.1 hi
    have hsub : (pySliceFrom p (-k)).Sublist p := by
      unfold pySliceFrom
      split <;> exact List.drop_sublist _ _
    have hip : i ∈ p := hsub.mem hi2
    rw [argpartition_some_eq hp] at hip
    exact mem_argsortAsc hip

/-- Success shape of `queryIdx` for `1 ≤ k ≤ n`: `k` distinct in-range
indices with non-increasing scores. -/
theorem queryIdx_spec_pos (s : List ℚ) (k : Int) (hk1 : 1 ≤ k)
    (hkn : k ≤ (s.length : Int)) :
    ∃ idxs, queryIdx s k = some idxs ∧ idxs.length = k.toNat ∧ idxs.Nodup ∧
      (∀ i ∈ idxs, i < s.length) ∧
      List.Sorted (fun a b => s.getD b 0 ≤ s.getD a 0) idxs := by
  have hap := argpartition_eq_some s k hk1 hkn
  set p := argsortAsc s with hp
  have hqe : queryIdx s k =
      some ((argsortAsc ((pySliceFrom p (-k)).map fun i => -(s.getD i 0))).map
        (fun j => (pySliceFrom p (-k)).getD j defaultIdx)) := by
    rw [queryIdx, hap]
  have htop : pySliceFrom p (-k) = p.drop (p.length - k.toNat) :=
    pySliceFrom_neg p k hk1
  have hplen : p.length = s.length := argsortAsc_length s
  have htoplen : (pySliceFrom p (-k)).length = k.toNat := by
    rw [htop, List.length_drop]
    omega
  have hstage := topStage s (pySliceFrom p (-k))
  refine ⟨_, hqe, ?_, ?_, ?_, hstage.2⟩
  · rw [hstage.1.length_eq, htoplen]
  · refine (hstage.1.nodup_iff).2 ?_
    rw [htop]
    exact (List.drop_sublist _ _).nodup (argsortAsc_nodup s)
  · exact queryIdx_mem_lt hqe

/-- Success shape of `queryIdx` for `k = 0`: the whole index range,
scores non-increasing. -/
theorem queryIdx_spec_zero (s : List ℚ) (h : s ≠ []) :
    ∃ idxs, queryIdx s 0 = some idxs ∧
      idxs.Perm (List.range s.length) ∧
      List.Sorted (fun a b => s.getD b 0 ≤ s.getD a 0) idxs := by
  have hap : argpartition s (-(0 : Int)) = some (argsortAsc s) := by
    rw [neg_zero]
    exact argpartition_zero s h
  set p := argsortAsc s with hp
  have hqe : queryIdx s 0 =
      some ((argsortAsc ((pySliceFrom p (-(0 : Int))).map fun i => -(s.getD i 0))).map
        (fun j => (pySliceFrom p (-(0 : Int))).getD j defaultIdx)) := by
    rw [queryIdx, hap]
  have htop : pySliceFrom p (-(0 : Int)) = p := by
    rw [neg_zero]
    exact pySliceFrom_zero p
  have hstage := topStage s (pySliceFrom p (-(0 : Int)))
  refine ⟨_, hqe, ?_, hstage.2⟩
  exact hstage.1.trans (htop ▸ argsortAsc_perm s)

/-- The worker of `splitSections` never returns an empty list: the piece in
`acc` (possibly empty) is always emitted. -/
theorem splitSectionsAux_ne_nil : ∀ (l : List Char) (acc : List Char),
    splitSectionsAux acc l ≠ []
  | [], acc => by simp [splitSectionsAux]
  | c :: rest, acc => by
    rw [splitSectionsAux]
    split
    · simp
    · exact splitSectionsAux_ne_nil rest (c :: acc)

/-- `re.split` on the FAQ text always yields at least one section. -/
theorem splitSections_ne_nil (text : List Char) : splitSections text ≠ [] :=
  splitSectionsAux_ne_nil text []

/-! ### Concrete data for the spec's scenarios -/

/-- The three-document corpus of the spec's concrete scenario. -/
def demoDocs : List Doc :=
  ["Refunds are allowed within 24 hours.",
   "Baggage fees apply after the first item.",
   "Pets are allowed in the cabin for a fee."]

/-- The stub embeddings of the spec's concrete scenario. -/
def demoArr : List (List ℚ) := [[1, 0], [0, 1], [9/10, 1/10]]

/-- A retriever readied with the demo corpus. -/
def demoSt : PolicyRetriever := ⟨some demoDocs, some demoArr⟩

/-- A one-document retriever used for small counterexamples. -/
def oneSt : PolicyRetriever := ⟨some ["a"], some [[1]]⟩

/-! ### Claims -/

/-- C1: for every initialized retriever holding `n` documents and every `k`
with `1 ≤ k ≤ n`, `query` returns exactly `k` results, ordered by
non-increasing similarity score, with no document index appearing more
than once. -/
theorem c1_query_returns_topk (docs : List Doc) (arr : List (List ℚ))
    (qv : List ℚ) (k : Int) (hlen : arr.length = docs.length)
    (hk1 : 1 ≤ k) (hkn : k ≤ (docs.length : Int)) :
    ∃ rs idxs, query ⟨some docs, some arr⟩ qv k = .ok rs ∧
      rs.length = k.toNat ∧
      List.Sorted (fun a b => b.similarity ≤ a.similarity) rs ∧
      queryIdx (scoresOf qv arr) k = some idxs ∧ idxs.Nodup ∧
      rs = idxs.map (fun i =>
        ⟨docs.getD i defaultDoc, (scoresOf qv arr).getD i 0⟩) := by
  have hslen : (scoresOf qv arr).length = docs.length := by
    simp [scoresOf, hlen]
  obtain ⟨idxs, hq, hlen2, hnd, _, hsort⟩ :=
    queryIdx_spec_pos (scoresOf qv arr) k hk1 (by rw [hslen]; exact hkn)
  refine ⟨idxs.map (fun i =>
      ⟨docs.getD i defaultDoc, (scoresOf qv arr).getD i 0⟩), idxs,
    ?_, ?_, ?_, hq, hnd, rfl⟩
  · simp only [query, hq]
  · simp [hlen2]
  · exact hsort.map _ (fun a b h => h)

/-- C1 witness: the demo corpus with `k = 2` satisfies the hypotheses and
the conclusion. -/
theorem c1_query_returns_topk_witness :
    demoArr.length = demoDocs.length ∧ (1 : Int) ≤ 2 ∧
      (2 : Int) ≤ (demoDocs.length : Int) ∧
    (∃ rs idxs, query ⟨some demoDocs, some demoArr⟩ [1, 0] 2 = .ok rs ∧
      rs.length = (2 : Int).toNat ∧
      List.Sorted (fun a b => b.similarity ≤ a.similarity) rs ∧
      queryIdx (scoresOf [1, 0] demoArr) 2 = some idxs ∧ idxs.Nodup ∧
      rs = idxs.map (fun i =>
        ⟨demoDocs.getD i defaultDoc, (scoresOf [1, 0] demoArr).getD i 0⟩)) :=
  ⟨rfl, by decide, by decide,
    c1_query_returns_topk demoDocs demoArr [1, 0] 2 rfl (by decide) (by decide)⟩

/-- C2 counterexample: on a one-document corpus, `query` with `k = 2` does
not clamp `k`; it propagates numpy's `ValueError`, returning no results. -/
theorem c2_k_gt_n_counterexample :
    query oneSt [1] 2 = .error .valueError := by
  norm_num [query, queryIdx, argpartition, argpartitionValid, oneSt,
    scoresOf, dot]

/-- C2 amended: for every initialized retriever holding `n` documents and
every `k > n`, `query` fails with the `ValueError` raised by
`np.argpartition` (`kth` out of bounds); `k` is not clamped and no results
are returned. -/
theorem c2_amended_k_gt_n_fails (docs : List Doc) (arr : List (List ℚ))
    (qv : List ℚ) (k : Int) (hlen : arr.length = docs.length)
    (h : (docs.length : Int) < k) :
    query ⟨some docs, some arr⟩ qv k = .error .valueError := by
  have hslen : (scoresOf qv arr).length = docs.length := by
    simp [scoresOf, hlen]
  have hnone : queryIdx (scoresOf qv arr) k = none := by
    rw [queryIdx, argpartition_gt _ _ (by rw [hslen]; exact h)]
  simp only [query, hnone]

/-- C2 amended witness: the one-document retriever with `k = 2`. -/
theorem c2_amended_k_gt_n_fails_witness :
    ([[1]] : List (List ℚ)).length = (["a"] : List Doc).length ∧
      (((["a"] : List Doc).length : Int) < 2) ∧
    query ⟨some ["a"], some [[1]]⟩ [1] 2 = .error .valueError :=
  ⟨rfl, by decide, c2_amended_k_gt_n_fails ["a"] [[1]] [1] 2 rfl (by decide)⟩

/-- C4: `query` on a freshly constructed, never-initialized retriever
raises the not-initialized `RuntimeError`, for every query vector and
every `k`; it never returns a successful (empty or other) result list. -/
theorem c4_query_uninitialized_raises (qv : List ℚ) (k : Int) :
    query mkEmpty qv k = .error .notInitialized := rfl

/-- C5: if `embed_documents` raises during `initialize`, the call fails and
the retriever's state is unchanged — subsequent queries behave exactly as
before the failed call (old corpus if `Ready`, still uninitialized if
`Empty`). -/
theorem c5_embed_failure_preserves_state (st : PolicyRetriever)
    (sections : List Doc) (qv : List ℚ) (k : Int) :
    initializeRun st sections (.error ()) = (.error (), st) ∧
    query (initializeRun st sections (.error ())).2 qv k = query st qv k :=
  ⟨rfl, rfl⟩

/-- C6 counterexample: `query` with `k = 0` on an initialized one-document
retriever succeeds and returns a result list instead of raising an
invalid-argument error. -/
theorem c6_k_zero_counterexample :
    query oneSt [1] 0 = .ok [⟨"a", 1⟩] := by
  norm_num [query, queryIdx, argpartition, argpartitionValid, argsortAsc,
    pySliceFrom, oneSt, scoresOf, dot, scoreLe, defaultDoc, defaultIdx,
    List.insertionSort, List.orderedInsert, List.range_succ]

/-- C6 amended: `query` performs no validation of `k` and has no
invalid-argument error: for `k = 0` on an initialized retriever holding at
least one document it succeeds and returns a result list. -/
theorem c6_amended_k_zero_no_error (docs : List Doc) (arr : List (List ℚ))
    (qv : List ℚ) (hlen : arr.length = docs.length) (hne : docs ≠ []) :
    ∃ rs, query ⟨some docs, some arr⟩ qv 0 = .ok rs := by
  have hslen : (scoresOf qv arr).length = docs.length := by
    simp [scoresOf, hlen]
  have hsne : scoresOf qv arr ≠ [] := by
    apply List.ne_nil_of_length_pos
    rw [hslen]
    exact List.length_pos.2 hne
  obtain ⟨idxs, hq, _, _⟩ := queryIdx_spec_zero _ hsne
  refine ⟨idxs.map (fun i =>
      ⟨docs.getD i defaultDoc, (scoresOf qv arr).getD i 0⟩), ?_⟩
  simp only [query, hq]

/-- C6 amended witness: the one-document retriever with `k = 0`. -/
theorem c6_amended_k_zero_no_error_witness :
    ([[1]] : List (List ℚ)).length = (["a"] : List Doc).length ∧
      (["a"] : List Doc) ≠ [] ∧
    (∃ rs, query ⟨some ["a"], some [[1]]⟩ [1] 0 = .ok rs) :=
  ⟨rfl, by decide, c6_amended_k_zero_no_error ["a"] [[1]] [1] rfl (by decide)⟩

/-- C7 counterexample: modelling `initialize` with an empty section list
and a successful (empty) embedding batch, the call succeeds and stores the
empty corpus and matrix: no invalid-argument error is raised and the
retriever does not remain in the never-initialized state. -/
theorem c7_empty_corpus_counterexample :
    initializeRun mkEmpty [] (.ok []) = (.ok (), ⟨some [], some []⟩) := rfl

/-- C7 amended: `initialize` contains no empty-corpus check — with an empty
section list and a successful embedding call it succeeds, storing an empty
corpus and matrix instead of failing — and the code's `re.split` step never
produces an empty section list in the first place. -/
theorem c7_amended_no_empty_corpus_check :
    (∀ st : PolicyRetriever,
      initializeRun st [] (.ok []) = (.ok (), ⟨some [], some []⟩)) ∧
    ∀ text : List Char, splitSections text ≠ [] :=
  ⟨fun _ => rfl, splitSections_ne_nil⟩

/-- C8: similarity is the raw dot product of the query embedding and each
document embedding, with no normalization; on the spec's demo corpus with
query embedding `[1, 0]` and `k = 2` the scores are `[1, 0, 9/10]` and the
result is document 0 (score 1) then document 2 (score 9/10). -/
theorem c8_raw_dot_product_scenario :
    scoresOf [1, 0] demoArr =
      [dot [1, 0] [1, 0], dot [1, 0] [0, 1], dot [1, 0] [9/10, 1/10]] ∧
    scoresOf [1, 0] demoArr = [1, 0, 9/10] ∧
    query demoSt [1, 0] 2 =
      .ok [⟨"Refunds are allowed within 24 hours.", 1⟩,
           ⟨"Pets are allowed in the cabin for a fee.", 9/10⟩] := by
  refine ⟨rfl, ?_, ?_⟩
  · norm_num [scoresOf, dot, demoArr]
  · norm_num [query, queryIdx, argpartition, argpartitionValid, argsortAsc,
      pySliceFrom, demoSt, demoDocs, demoArr, scoresOf, dot, scoreLe,
      defaultDoc, defaultIdx, List.insertionSort, List.orderedInsert,
      List.range_succ]

/-- C9: a successful re-initialization fully replaces the stored documents
and matrix, and every subsequent successful query returns only content
drawn from the new corpus. -/
theorem c9_reinit_full_replace (st : PolicyRetriever) (sections : List Doc)
    (vectors : List (List ℚ)) (qv : List ℚ) (k : Int)
    (rs : List RankedResult) (hlen : vectors.length = sections.length) :
    initializeRun st sections (.ok vectors) =
      (.ok (), ⟨some sections, some vectors⟩) ∧
    (query ⟨some sections, some vectors⟩ qv k = .ok rs →
      ∀ r ∈ rs, r.content ∈ sections) := by
  refine ⟨rfl, ?_⟩
  intro hq r hr
  have hslen : (scoresOf qv vectors).length = sections.length := by
    simp [scoresOf, hlen]
  rcases hqi : queryIdx (scoresOf qv vectors) k with _ | idxs
  · simp only [query, hqi] at hq
    exact absurd hq (by simp)
  · simp only [query, hqi] at hq
    have hrs : rs = idxs.map (fun i =>
        ⟨sections.getD i defaultDoc, (scoresOf qv vectors).getD i 0⟩) := by
      simpa using hq.symm
    rw [hrs] at hr
    obtain ⟨i, hi, hri⟩ := List.mem_map.1 hr
    have hilt : i < sections.length := by
      have := queryIdx_mem_lt hqi i hi
      omega
    rw [← hri]
    simp only
    rw [List.getD_eq_getElem _ _ hilt]
    exact List.getElem_mem _

/-- C9 witness: re-initialization of an empty retriever with a concrete
two-document corpus; the top-1 query result content lies in that corpus. -/
theorem c9_reinit_full_replace_witness :
    ([[1], [2]] : List (List ℚ)).length = (["x", "y"] : List Doc).length ∧
    (initializeRun mkEmpty ["x", "y"] (.ok [[1], [2]]) =
      (.ok (), ⟨some ["x", "y"], some [[1], [2]]⟩) ∧
    (query ⟨some ["x", "y"], some [[1], [2]]⟩ [1] 1 = .ok [⟨"y", 2⟩] →
      ∀ r ∈ [(⟨"y", 2⟩ : RankedResult)], r.content ∈ (["x", "y"] : List Doc))) :=
  ⟨rfl, c9_reinit_full_replace mkEmpty ["x", "y"] [[1], [2]] [1] 1 [⟨"y", 2⟩] rfl⟩

/-- C10: for an initialized retriever holding `n ≥ 1` documents, `query`
with `k = 0` succeeds and returns all `n` documents in non-increasing
score order — the slice `[-0:]` selects the whole score array. -/
theorem c10_k_zero_returns_all (docs : List Doc) (arr : List (List ℚ))
    (qv : List ℚ) (hlen : arr.length = docs.length) (hne : docs ≠ []) :
    ∃ rs idxs, query ⟨some docs, some arr⟩ qv 0 = .ok rs ∧
      rs.length = docs.length ∧
      List.Sorted (fun a b => b.similarity ≤ a.similarity) rs ∧
      queryIdx (scoresOf qv arr) 0 = some idxs ∧
      idxs.Perm (List.range docs.length) ∧
      rs = idxs.map (fun i =>
        ⟨docs.getD i defaultDoc, (scoresOf qv arr).getD i 0⟩) := by
  have hslen : (scoresOf qv arr).length = docs.length := by
    simp [scoresOf, hlen]
  have hsne : scoresOf qv arr ≠ [] := by
    apply List.ne_nil_of_length_pos
    rw [hslen]
    exact List.length_pos.2 hne
  obtain ⟨idxs, hq, hperm, hsort⟩ := queryIdx_spec_zero _ hsne
  rw [hslen] at hperm
  refine ⟨idxs.map (fun i =>
      ⟨docs.getD i defaultDoc, (scoresOf qv arr).getD i 0⟩), idxs,
    ?_, ?_, ?_, hq, hperm, rfl⟩
  · simp only [query, hq]
  · simp [hperm.length_eq]
  · exact hsort.map _ (fun a b h => h)

/-- C10 witness: the demo corpus with `k = 0`. -/
theorem c10_k_zero_returns_all_witness :
    demoArr.length = demoDocs.length ∧ demoDocs ≠ [] ∧
    (∃ rs idxs, query ⟨some demoDocs, some demoArr⟩ [1, 0] 0 = .ok rs ∧
      rs.length = demoDocs.length ∧
      List.Sorted (fun a b => b.similarity ≤ a.similarity) rs ∧
      queryIdx (scoresOf [1, 0] demoArr) 0 = some idxs ∧
      idxs.Perm (List.range demoDocs.length) ∧
      rs = idxs.map (fun i =>
        ⟨demoDocs.getD i defaultDoc, (scoresOf [1, 0] demoArr).getD i 0⟩)) :=
  ⟨rfl, by decide,
    c10_k_zero_returns_all demoDocs demoArr [1, 0] rfl (by decide)⟩

end PolicySpec
